import Mathlib

/-!
Verification development for the resilient generation-orchestration layer of
the INA-political-unrest-2025 pipeline.

The Lean definitions below are shallow embeddings of the Python source:

* `GenErr`, `retryable`, `backoffWait`, `retryGen` embed the decorated
  `generate` function of `src/python/preanalysis.py` (tenacity `retry` with
  `retry_if_exception_type((httpx.ConnectError, httpx.ReadTimeout, OSError,
  APIError))`, `wait_exponential(multiplier=1, min=4, max=60)`, `stop_never`,
  `reraise=True`).
* `RLState`, `rlSim` embed the `ratelimit` decorators
  `@sleep_and_retry @limits(calls=150, period=60)` on `generate`.
* `PyVal`, `serialize`, `write_json`, `write_data`, `load_or_create` embed
  `src/python/parse.py`.
* `Row`, `iter_by_day`, `retryPass`, `retryLoop`, `retry_by_day` embed
  `src/python/daily_highlights.py`.
* `Entry`, `retryReduce`, `refinePass`, `refine_theme` embed
  `src/python/thematic_analysis.py`.

External effects (the network call, the wall clock, the filesystem) are made
explicit: the inference service is an oracle indexed by attempt number,
elapsed time is data, and the filesystem is a list of path/content pairs.
Loops that the Python source runs without bound are given a fuel parameter;
`none` means the loop was still running when the fuel ran out, so every
theorem about a loop result is conditional on termination, exactly as the
source's guarantees are.
-/

/-! ## RateLimitedClient: `generate` in `src/python/preanalysis.py` -/

/-- Exception classes that can surface from the body of `generate`.
`connectError`, `readTimeout`, `osError` are `httpx.ConnectError`,
`httpx.ReadTimeout`, `OSError`.  `apiError` is `google.genai.errors.APIError`,
the base class of BOTH client-side errors (4xx, e.g. a malformed request) and
server-side errors (5xx).  `schemaError` stands for any exception outside the
retried tuple (e.g. a pydantic validation error raised while building the
request config). -/
inductive GenErr where
  | connectError
  | readTimeout
  | osError
  | apiError
  | schemaError
deriving DecidableEq, Repr

/-- The tenacity retry predicate of `generate`:
`retry_if_exception_type((httpx.ConnectError, httpx.ReadTimeout, OSError, APIError))`. -/
def retryable : GenErr → Bool
  | .connectError => true
  | .readTimeout => true
  | .osError => true
  | .apiError => true
  | .schemaError => false

/-- The tenacity backoff `wait_exponential(multiplier = 1, min = 4, max = 60)`:
after the `n`-th failed attempt (0-indexed, tenacity's `attempt_number - 1`)
the wait is `1 * 2^n` clamped into `[4, 60]` seconds. -/
def backoffWait (n : Nat) : Nat :=
  max 4 (min (2 ^ n) 60)

/-- The retry loop that tenacity's `@retry(... stop = stop_never, reraise = True)`
wraps around the body of `generate`.  `svc i` is the outcome of the `i`-th
underlying call (the oracle for the Gemini service plus response parsing).
`s` counts the attempts already made, `ws` accumulates the backoff waits.
Fuel `0` means the loop was still retrying; the real loop has no attempt cap. -/
def retryGen {V : Type} (svc : Nat → Except GenErr V) :
    Nat → Nat → List Nat → Option (Except GenErr V × Nat × List Nat)
  | 0, _, _ => none
  | fuel + 1, s, ws =>
    match svc s with
    | .ok v => some (.ok v, s + 1, ws)
    | .error e =>
      if retryable e then retryGen svc fuel (s + 1) (ws ++ [backoffWait s])
      else some (.error e, s + 1, ws)

/-- A full run of the decorated `generate`: start at attempt 0 with no waits. -/
def generateModel {V : Type} (svc : Nat → Except GenErr V) (fuel : Nat) :
    Option (Except GenErr V × Nat × List Nat) :=
  retryGen svc fuel 0 []

/-- Whether a finished `generateModel` run surfaced an error to the caller. -/
def surfacedError {V : Type} : Option (Except GenErr V × Nat × List Nat) → Bool
  | some (.error _, _, _) => true
  | _ => false

/-! ### The `ratelimit` layer: `@sleep_and_retry @limits(calls = 150, period = 60)`

The `ratelimit` package keeps a FIXED window: `last_reset` is set when the
decorator is built and again whenever a call arrives with
`clock() - last_reset >= period`; `num_calls` counts calls since the last
reset and a call that would exceed `calls` raises `RateLimitException`
with `period_remaining`, which `sleep_and_retry` sleeps away before
re-entering (at which point the window has expired and resets). -/

/-- The mutable state of `ratelimit.limits(calls = 150, period = 60)`:
the anchor of the current fixed window and the calls counted inside it. -/
structure RLState where
  lastReset : Nat
  numCalls : Nat
deriving DecidableEq, Repr

/-- Discrete-event simulation of the rate-limit gate on `generate`.
`reqs` are the desired call times (seconds); a call is issued at
`max clock t` where `clock` is the time of the previous issued call.
Output: one `(anchor, time)` pair per issued call, where `anchor` is the
`last_reset` of the fixed window the call was counted in.
Branch 1: the window has expired, so `limits` resets it to the call time and
the counter restarts at this call (a freshly reset window always admits).
Branch 2: within the window with capacity left, the call is counted.
Branch 3: the window is at capacity, `limits` raises `RateLimitException`
and `sleep_and_retry` sleeps `period_remaining`, re-entering at
`last_reset + 60` where the window resets and the call goes through. -/
def rlSim : RLState → Nat → List Nat → List (Nat × Nat)
  | _, _, [] => []
  | s, clock, t :: ts =>
    if s.lastReset + 60 ≤ max clock t then
      (max clock t, max clock t) :: rlSim ⟨max clock t, 1⟩ (max clock t) ts
    else if s.numCalls + 1 ≤ 150 then
      (s.lastReset, max clock t) ::
        rlSim ⟨s.lastReset, s.numCalls + 1⟩ (max clock t) ts
    else
      (s.lastReset + 60, s.lastReset + 60) ::
        rlSim ⟨s.lastReset + 60, 1⟩ (s.lastReset + 60) ts

/-- Number of issued calls counted in the fixed window anchored at `a`. -/
def countAnchor (a : Nat) (tr : List (Nat × Nat)) : Nat :=
  (tr.filter (fun e => e.1 == a)).length

/-- Number of issued calls whose time lies in the sliding window `[lo, lo+60)`. -/
def countInWindow (tr : List (Nat × Nat)) (lo : Nat) : Nat :=
  (tr.filter (fun e => decide (lo ≤ e.2) && decide (e.2 < lo + 60))).length

/-! ## ArtifactCache: `src/python/parse.py` -/

/-- Scalar Python values (JSON-serializable leaves). -/
inductive PyAtom where
  | str (s : String)
  | int (n : Int)
  | bool (b : Bool)
  | pynone
deriving DecidableEq, Repr

mutual
/-- A Python value as handled by `parse.py`: a scalar, an arbitrary
non-JSON-serializable object (`other`, e.g. a timestamp), a list, a plain
dict, or a pydantic `BaseModel` instance (`model`, carrying its class name
and its fields). -/
inductive PyVal where
  | atom (a : PyAtom)
  | other (descr : String)
  | list (xs : PyList)
  | dict (fs : PyFields)
  | model (nm : String) (fs : PyFields)
/-- A Python list of values. -/
inductive PyList where
  | nil
  | cons (x : PyVal) (xs : PyList)
/-- The (string-keyed, insertion-ordered) items of a Python dict or of a
pydantic model. -/
inductive PyFields where
  | nil
  | cons (k : String) (v : PyVal) (fs : PyFields)
end

mutual
/-- Structural size of a `PyVal` (termination measure). -/
def sizeV : PyVal → Nat
  | .atom _ => 1
  | .other _ => 1
  | .list xs => sizeL xs + 1
  | .dict fs => sizeF fs + 1
  | .model _ fs => sizeF fs + 1
/-- Structural size of a `PyList`. -/
def sizeL : PyList → Nat
  | .nil => 1
  | .cons x xs => sizeV x + sizeL xs + 1
/-- Structural size of `PyFields`. -/
def sizeF : PyFields → Nat
  | .nil => 1
  | .cons _ v fs => sizeV v + sizeF fs + 1
end

mutual
/-- Number of pydantic model instances nested anywhere in a value
(termination measure for `serialize`). -/
def modelCount : PyVal → Nat
  | .atom _ => 0
  | .other _ => 0
  | .list xs => modelCountL xs
  | .dict fs => modelCountF fs
  | .model _ fs => modelCountF fs + 1
/-- Model instances nested in a list. -/
def modelCountL : PyList → Nat
  | .nil => 0
  | .cons x xs => modelCount x + modelCountL xs
/-- Model instances nested in dict/model fields. -/
def modelCountF : PyFields → Nat
  | .nil => 0
  | .cons _ v fs => modelCount v + modelCountF fs
end

mutual
/-- Pydantic v1 `BaseModel.dict()`: convert a model to a plain dict,
recursively converting every nested model as well. -/
def dictOf : PyVal → PyVal
  | .atom a => .atom a
  | .other d => .other d
  | .list xs => .list (dictOfL xs)
  | .dict fs => .dict (dictOfF fs)
  | .model _ fs => .dict (dictOfF fs)
/-- `dict()` conversion inside a list. -/
def dictOfL : PyList → PyList
  | .nil => .nil
  | .cons x xs => .cons (dictOf x) (dictOfL xs)
/-- `dict()` conversion inside dict/model fields. -/
def dictOfF : PyFields → PyFields
  | .nil => .nil
  | .cons k v fs => .cons k (dictOf v) (dictOfF fs)
end

mutual
/-- No pydantic model instance occurs at any nesting depth. -/
def modelFree : PyVal → Bool
  | .atom _ => true
  | .other _ => true
  | .list xs => modelFreeL xs
  | .dict fs => modelFreeF fs
  | .model _ _ => false
/-- `modelFree` on a list. -/
def modelFreeL : PyList → Bool
  | .nil => true
  | .cons x xs => modelFree x && modelFreeL xs
/-- `modelFree` on fields. -/
def modelFreeF : PyFields → Bool
  | .nil => true
  | .cons _ v fs => modelFree v && modelFreeF fs
end

mutual
/-- Whether `json.dump` accepts the value: built only from scalars, lists
and dicts — any `other` object (or model instance) raises `TypeError`. -/
def jsonable : PyVal → Bool
  | .atom _ => true
  | .other _ => false
  | .list xs => jsonableL xs
  | .dict fs => jsonableF fs
  | .model _ _ => false
/-- `jsonable` on a list. -/
def jsonableL : PyList → Bool
  | .nil => true
  | .cons x xs => jsonable x && jsonableL xs
/-- `jsonable` on fields. -/
def jsonableF : PyFields → Bool
  | .nil => true
  | .cons _ v fs => jsonable v && jsonableF fs
end

mutual
/-- Termination fact for `serialize`: `dict()` conversion removes every
nested model instance. -/
def modelCount_dictOf : ∀ v : PyVal, modelCount (dictOf v) = 0
  | .atom _ => rfl
  | .other _ => rfl
  | .list xs => modelCountL_dictOfL xs
  | .dict fs => modelCountF_dictOfF fs
  | .model _ fs => modelCountF_dictOfF fs
/-- List version of `modelCount_dictOf`. -/
def modelCountL_dictOfL : ∀ xs : PyList, modelCountL (dictOfL xs) = 0
  | .nil => rfl
  | .cons x xs => by
      show modelCount (dictOf x) + modelCountL (dictOfL xs) = 0
      rw [modelCount_dictOf x, modelCountL_dictOfL xs]
/-- Fields version of `modelCount_dictOf`. -/
def modelCountF_dictOfF : ∀ fs : PyFields, modelCountF (dictOfF fs) = 0
  | .nil => rfl
  | .cons _ v fs => by
      show modelCount (dictOf v) + modelCountF (dictOfF fs) = 0
      rw [modelCount_dictOf v, modelCountF_dictOfF fs]
end

/-- Lexicographic helper for the termination proofs below. -/
def lexLe {a b c d : Nat} (h1 : a ≤ c) (h2 : b < d) :
    Prod.Lex (· < ·) (· < ·) (a, b) (c, d) := by
  rcases Nat.lt_or_ge a c with h | h
  · exact Prod.Lex.left _ _ h
  · have hac : a = c := Nat.le_antisymm h1 h
    subst hac
    exact Prod.Lex.right _ h2

mutual
/-- `serialize` in parse.py: a pydantic model is converted with `.dict()` and
re-serialized; a dict or list is rebuilt with every member serialized; any
other object is returned unchanged. -/
def serialize : PyVal → PyVal
  | .model nm fs => serialize (dictOf (.model nm fs))
  | .dict fs => .dict (serializeF fs)
  | .list xs => .list (serializeL xs)
  | .atom a => .atom a
  | .other d => .other d
termination_by v => (modelCount v, sizeV v)
decreasing_by
  · exact Prod.Lex.left _ _ (by
      rw [modelCount_dictOf]
      exact Nat.succ_pos _)
  · exact lexLe (Nat.le_refl _) (Nat.lt_succ_self _)
  · exact lexLe (Nat.le_refl _) (Nat.lt_succ_self _)
/-- `serialize` mapped over a list (the list comprehension in parse.py). -/
def serializeL : PyList → PyList
  | .nil => .nil
  | .cons x xs => .cons (serialize x) (serializeL xs)
termination_by xs => (modelCountL xs, sizeL xs)
decreasing_by
  · exact lexLe (Nat.le_add_right _ _)
      (Nat.lt_succ_of_le (Nat.le_add_right _ _))
  · exact lexLe (Nat.le_add_left _ _)
      (Nat.lt_succ_of_le (Nat.le_add_left _ _))
/-- `serialize` mapped over dict items (the dict comprehension in parse.py). -/
def serializeF : PyFields → PyFields
  | .nil => .nil
  | .cons k v fs => .cons k (serialize v) (serializeF fs)
termination_by fs => (modelCountF fs, sizeF fs)
decreasing_by
  · exact lexLe (Nat.le_add_right _ _)
      (Nat.lt_succ_of_le (Nat.le_add_right _ _))
  · exact lexLe (Nat.le_add_left _ _)
      (Nat.lt_succ_of_le (Nat.le_add_left _ _))
end

/-- A single-quote character as a string (for Python `repr` rendering). -/
def pyQuote : String := String.singleton (Char.ofNat 39)

mutual
/-- Python `repr` of a value (used by `str` inside containers). -/
def pyRepr : PyVal → String
  | .atom (.str s) => pyQuote ++ s ++ pyQuote
  | .atom (.int n) => toString n
  | .atom (.bool true) => "True"
  | .atom (.bool false) => "False"
  | .atom .pynone => "None"
  | .other d => d
  | .list xs => "[" ++ pyReprL xs ++ "]"
  | .dict fs => "\x7b" ++ pyReprF fs ++ "\x7d"
  | .model nm fs => nm ++ "(" ++ pyReprF fs ++ ")"
/-- Comma-separated `repr` of list members. -/
def pyReprL : PyList → String
  | .nil => ""
  | .cons x .nil => pyRepr x
  | .cons x xs => pyRepr x ++ ", " ++ pyReprL xs
/-- Comma-separated `repr` of dict items. -/
def pyReprF : PyFields → String
  | .nil => ""
  | .cons k v .nil => pyQuote ++ k ++ pyQuote ++ ": " ++ pyRepr v
  | .cons k v fs => pyQuote ++ k ++ pyQuote ++ ": " ++ pyRepr v ++ ", " ++ pyReprF fs
end

/-- Python `str(obj)`: a bare string for a `str`, `repr` rendering otherwise. -/
def pyStr : PyVal → String
  | .atom (.str s) => s
  | v => pyRepr v

/-- A persisted artifact: either structured text (`json.dump` output, kept
here as the parsed value) or the plain-text fallback dump. -/
inductive FileContent where
  | jsonC (v : PyVal)
  | textC (s : String)

/-- The filesystem as seen through `os.path.exists` / `open`: a list of
path/content pairs, later writes shadowing earlier ones. -/
structure FSState where
  files : List (String × FileContent)

/-- Write (or overwrite) the artifact at `p`. -/
def writeFile (fs : FSState) (p : String) (c : FileContent) : FSState :=
  ⟨(p, c) :: fs.files⟩

/-- The artifact currently stored at `p`, if any (`os.path.exists` + read). -/
def lookupFile (fs : FSState) (p : String) : Option FileContent :=
  (fs.files.find? (fun e => e.1 == p)).map (fun e => e.2)

/-- Index of the last occurrence of `c` in `cs` (Python `str.rfind`,
`none` for `-1`). -/
def lastIdxOf (c : Char) (cs : List Char) : Option Nat :=
  ((List.range cs.length).filter (fun i => cs.get? i == some c)).getLast?

/-- The stem of `os.path.splitext(path)`: cut at the last dot, provided that
dot lies after the last path separator and the basename has a non-dot
character before it (CPython `genericpath._splitext`). -/
def splitextStem (s : String) : String :=
  let cs := s.data
  let fi : Nat := match lastIdxOf '/' cs with
    | none => 0
    | some i => i + 1
  match lastIdxOf '.' cs with
  | none => s
  | some d =>
    if decide (fi ≤ d) &&
        ((List.range d).any (fun j =>
          decide (fi ≤ j) && !(cs.get? j == some '.'))) then
      String.mk (cs.take d)
    else s

/-- `write_json` in parse.py: serialize the object, then try `json.dump` at
`path`; if the serialized object is not JSON-representable
(`TypeError`/`ValueError`), fall back to writing `str(obj)` at
`splitext(path)[0] + ".txt"`.  Both branches return normally — the model
returns the updated filesystem and never fails. -/
def write_json (fs : FSState) (path : String) (obj : PyVal) : FSState :=
  let o := serialize obj
  if jsonable o then writeFile fs path (.jsonC o)
  else writeFile fs (splitextStem path ++ ".txt") (.textC (pyStr o))

/-- `write_data` in parse.py for non-tabular objects: delegate to
`write_json`.  (The `pd.DataFrame` → `to_csv` branch concerns the tabular
artifacts outside this model's value universe.) -/
def write_data (fs : FSState) (path : String) (obj : PyVal) : FSState :=
  write_json fs path obj

/-- Loading an artifact back (`read_data` on a structured artifact): a
`.json` artifact parses to its stored value; a plain-text fallback dump is
not parseable as the structured format. -/
def readContent : FileContent → Option PyVal
  | .jsonC v => some v
  | .textC _ => none

/-- `load_or_create` in parse.py: if an artifact exists at `path`, load and
return it without touching `FUN` or `params`; otherwise invoke `FUN`,
persist its result at `path` via `write_data`, and return it.  The `Bool`
in the result instruments whether `FUN` was invoked. -/
def load_or_create {A : Type} (fs : FSState) (FUN : A → PyVal) (path : String)
    (args : A) : Option (PyVal × FSState × Bool) :=
  match lookupFile fs path with
  | some c => (readContent c).map (fun v => (v, fs, false))
  | none =>
    let v := FUN args
    some (v, write_data fs path v, true)

/-! ## PartitionedBatchRunner: `src/python/daily_highlights.py` -/

/-- One row of the news dataset as `iter_by_day` / `retry_by_day` see it.
`pubDate` is the calendar date of `pubDateTime` rendered `YYYY-MM-DD`;
`none` models an unparsable timestamp (`NaT` after
`pd.to_datetime(..., errors="coerce")`), which `groupby` drops and whose
`strftime` never equals a date key. -/
structure Row where
  pubDate : Option String
  rownum : Nat
  summary : String
deriving DecidableEq, Repr

/-- The rows of one partition: `tbl[tbl["pubDateTime"].dt.strftime("%Y-%m-%d") == key]`. -/
def rowsOn (tbl : List Row) (key : String) : List Row :=
  tbl.filter (fun r => r.pubDate == some key)

/-- Lexicographic code-point comparison of character lists (the order Python
uses on `YYYY-MM-DD` date strings). -/
def charListLe : List Char → List Char → Bool
  | [], _ => true
  | _ :: _, [] => false
  | a :: as, b :: bs =>
    if a.toNat < b.toNat then true
    else if b.toNat < a.toNat then false
    else charListLe as bs

/-- Lexicographic string comparison. -/
def strLe (a b : String) : Bool := charListLe a.data b.data

/-- Insert a key into a sorted key list. -/
def insertKey (k : String) : List String → List String
  | [] => [k]
  | x :: xs => if strLe k x then k :: x :: xs else x :: insertKey k xs

/-- Insertion sort for date keys. -/
def sortKeys : List String → List String
  | [] => []
  | x :: xs => insertKey x (sortKeys xs)

/-- Drop duplicate keys, keeping the first occurrence. -/
def dedupKeys : List String → List String
  | [] => []
  | x :: xs => if x ∈ xs then dedupKeys xs else x :: dedupKeys xs

/-- The partition keys of the dataset, as `tbl.groupby(tbl["pubDateTime"].dt.date)`
produces them: the distinct parseable dates in ascending order. -/
def dayKeys (tbl : List Row) : List String :=
  sortKeys (dedupKeys (tbl.filterMap Row.pubDate))

/-- `iter_by_day` in daily_highlights.py: group the dataset by calendar
date and call `FUN` once per group, producing the date-keyed mapping.
`F` is the per-group generation call (the source also projects each group
to a list of `rownum`/`summary`/`topic`/`highlight` dicts before the call;
the model hands `F` the group's rows directly). -/
def iter_by_day {V : Type} (tbl : List Row) (F : List Row → Option V) :
    List (String × Option V) :=
  (dayKeys tbl).map (fun k => (k, F (rowsOn tbl k)))

/-- One pass of the retry loop in `retry_by_day`: for every key whose value
is `None`, re-invoke `FUN` on that key's rows re-derived by filtering `tbl`
on the key; entries already holding a value are left untouched.  `t` is the
pass index feeding the call oracle `F`. -/
def retryPass {V : Type} (F : Nat → List Row → Option V) (tbl : List Row)
    (t : Nat) (resp : List (String × Option V)) : List (String × Option V) :=
  resp.map (fun kv =>
    match kv.2 with
    | none => (kv.1, F t (rowsOn tbl kv.1))
    | some v => (kv.1, some v))

/-- The `while any(v is None for v in response.values())` loop of
`retry_by_day`.  Fuel `0` means the loop was still running (the source loop
has no attempt cap); `some resp` is returned exactly when no value is
`None`, and is then what `write_data(response, path)` persists and
`retry_by_day` returns. -/
def retryLoop {V : Type} (F : Nat → List Row → Option V) (tbl : List Row) :
    Nat → Nat → List (String × Option V) → Option (List (String × Option V))
  | 0, _, _ => none
  | fuel + 1, t, resp =>
    if resp.any (fun kv => kv.2.isNone) then
      retryLoop F tbl fuel (t + 1) (retryPass F tbl t resp)
    else some resp

/-- `retry_by_day` in daily_highlights.py: obtain the initial mapping via
`load_or_create` (modelled by `cached`: `some m` when an artifact already
existed, `none` for the fresh `iter_by_day` computation with the pass-0
oracle), then run the retry loop until no partition is `None`. -/
def retry_by_day {V : Type} (F : Nat → List Row → Option V) (tbl : List Row)
    (cached : Option (List (String × Option V))) (fuel : Nat) :
    Option (List (String × Option V)) :=
  retryLoop F tbl fuel 1
    (match cached with
     | some m => m
     | none => iter_by_day tbl (F 0))

/-! ## RefinementEngine: `src/python/thematic_analysis.py` -/

/-- One entry of a daily theme list (the `Theme` response model in
pipeline.py: `rownum`, keyword, theme, and the two rationales). -/
structure Entry where
  rownum : Nat
  kw : String
  thm : String
  rx_kw : String
  rx_thm : String
deriving DecidableEq, Repr

/-- The multiset of row identifiers present in a partition value. -/
def rowIds (v : List Entry) : Multiset Nat :=
  (v.map Entry.rownum : List Nat)

/-- The `result = None; while result is None: result = reanalyze(...)` loop
of `refine_theme`: call the reduction oracle `red` (attempt-indexed) until
it returns a non-null result; also report the next unused attempt index.
Fuel `0` means the loop was still running. -/
def retryReduce (red : Nat → List Entry → Option (List Entry)) :
    Nat → Nat → List Entry → Option (List Entry × Nat)
  | 0, _, _ => none
  | fuel + 1, t, v =>
    match red t v with
    | some w => some (w, t + 1)
    | none => retryReduce red fuel (t + 1) v

/-- One full pass of `refine_theme` over all partitions: for every key,
retry the reduction until non-null and replace the partition's value. -/
def refinePass (red : Nat → List Entry → Option (List Entry)) (fuel : Nat) :
    Nat → List (String × List Entry) →
    Option (List (String × List Entry) × Nat)
  | t, [] => some ([], t)
  | t, (k, v) :: rest =>
    match retryReduce red fuel t v with
    | none => none
    | some (w, t1) =>
      match refinePass red fuel t1 rest with
      | none => none
      | some (st1, t2) => some ((k, w) :: st1, t2)

/-- `refine_theme` in thematic_analysis.py: `n <= 0` returns the state
unchanged; otherwise run one full pass (each partition retried until
non-null) and recurse on the pass's output with `n - 1`. -/
def refine_theme (red : Nat → List Entry → Option (List Entry)) (fuel : Nat) :
    Nat → Nat → List (String × List Entry) →
    Option (List (String × List Entry))
  | 0, _, st => some st
  | n + 1, t, st =>
    match refinePass red fuel t st with
    | none => none
    | some (st1, t1) => refine_theme red fuel n t1 st1

/-! ## Theorems -/

/-- Every tenacity backoff wait is clamped into the configured `[4, 60]` range. -/
theorem backoffWait_bounds (n : Nat) : 4 ≤ backoffWait n ∧ backoffWait n ≤ 60 := by
  unfold backoffWait
  constructor
  · exact Nat.le_max_left _ _
  · exact Nat.max_le.mpr ⟨by omega, Nat.min_le_right _ _⟩

/-- Helper: a run whose first `k` attempts (from `s`) fail retryably and
whose `(s+k)`-th attempt succeeds returns that success with the clamped
exponential waits, for any sufficient fuel. -/
theorem retryGen_transient_run {V : Type} (svc : Nat → Except GenErr V) (v : V) :
    ∀ (k s : Nat) (ws : List Nat) (fuel : Nat),
      (∀ i, i < k → ∃ e, svc (s + i) = .error e ∧ retryable e = true) →
      svc (s + k) = .ok v → k + 1 ≤ fuel →
      retryGen svc fuel s ws =
        some (.ok v, s + k + 1,
          ws ++ (List.range k).map (fun i => backoffWait (s + i))) := by
  intro k
  induction k with
  | zero =>
    intro s ws fuel _ hS hf
    cases fuel with
    | zero => omega
    | succ f =>
      simp only [Nat.add_zero] at hS
      simp [retryGen, hS]
  | succ k ih =>
    intro s ws fuel hT hS hf
    obtain ⟨e, he, hre⟩ := hT 0 (by omega)
    simp only [Nat.add_zero] at he
    cases fuel with
    | zero => omega
    | succ f =>
      simp only [retryGen, he, hre, if_true]
      have hT1 : ∀ i, i < k → ∃ e1, svc (s + 1 + i) = .error e1 ∧ retryable e1 = true := by
        intro i hi
        have := hT (i + 1) (by omega)
        simpa [show s + (i + 1) = s + 1 + i by omega] using this
      have hS1 : svc (s + 1 + k) = .ok v := by
        simpa [show s + 1 + k = s + (k + 1) by omega] using hS
      rw [ih (s + 1) (ws ++ [backoffWait s]) f hT1 hS1 (by omega)]
      have hmap : (List.range k).map (fun i => backoffWait (s + 1 + i)) =
          (List.range k).map ((fun i => backoffWait (s + i)) ∘ Nat.succ) := by
        apply List.map_congr_left
        intro i _
        simp only [Function.comp_apply]
        congr 1
        omega
      have harr : ws ++ [backoffWait s] ++
            (List.range k).map (fun i => backoffWait (s + 1 + i)) =
          ws ++ (List.range (k + 1)).map (fun i => backoffWait (s + i)) := by
        rw [List.range_succ_eq_map, List.append_assoc, List.singleton_append,
          List.map_cons, List.map_map, hmap, Nat.add_zero]
      rw [harr]
      simp only [Option.some.injEq, Prod.mk.injEq, and_true, true_and]
      omega

/-- C3: if the underlying inference call fails with a retried (transient)
error exactly `k` times and then succeeds, the decorated `generate` returns
the success result after exactly `k+1` underlying calls, with every backoff
wait clamped into `[4, 60]`; the fuel hypothesis only says the model is run
long enough — the source loop has no attempt cap. -/
theorem generate_retry_convergence {V : Type} (svc : Nat → Except GenErr V)
    (k : Nat) (v : V) (fuel : Nat)
    (hT : ∀ i, i < k → ∃ e, svc i = .error e ∧ retryable e = true)
    (hS : svc k = .ok v) (hf : k + 1 ≤ fuel) :
    generateModel svc fuel = some (.ok v, k + 1, (List.range k).map backoffWait) ∧
    ∀ w ∈ (List.range k).map backoffWait, 4 ≤ w ∧ w ≤ 60 := by
  constructor
  · have := retryGen_transient_run svc v k 0 [] fuel
      (by intro i hi; simpa using hT i hi) (by simpa using hS) hf
    simpa [generateModel] using this
  · intro w hw
    simp only [List.mem_map] at hw
    obtain ⟨i, _, rfl⟩ := hw
    exact backoffWait_bounds i

/-- Witness for C3 at `k = 2` transient connect failures then success. -/
theorem generate_retry_convergence_witness :
    generateModel
        (fun i => if i < 2 then Except.error GenErr.connectError
                  else Except.ok "yes") 3 =
      some (.ok "yes", 3, (List.range 2).map backoffWait) ∧
    ∀ w ∈ (List.range 2).map backoffWait, 4 ≤ w ∧ w ≤ 60 :=
  generate_retry_convergence _ 2 "yes" 3
    (by
      intro i hi
      exact ⟨GenErr.connectError, by rw [if_pos hi], rfl⟩)
    (by rw [if_neg (by omega)]) (by omega)

/-- C4 counterexample: a malformed request surfaces as
`google.genai.errors.APIError` (its client-error subclass), which IS in the
tenacity retry tuple, so `generate` keeps retrying instead of propagating
after one attempt: with fuel for exactly one attempt the loop is still
retrying (`none`), not returning the error. -/
theorem generate_malformed_retried_counterexample :
    retryGen (fun _ => (Except.error GenErr.apiError : Except GenErr String)) 1 0 [] = none ∧
    retryGen (fun _ => (Except.error GenErr.apiError : Except GenErr String)) 1 0 []
      ≠ some (.error GenErr.apiError, 1, []) := by
  refine ⟨rfl, ?_⟩
  intro h
  simp [retryGen, retryable] at h

/-- C4 amended: only failures outside the retried exception classes
(connect error, read timeout, OS error, APIError) — e.g. a schema/validation
error — propagate immediately with exactly one underlying attempt and no
backoff wait; malformed-request errors surface as APIError and are retried
indefinitely like transient failures. -/
theorem generate_nonretryable_propagates {V : Type} (svc : Nat → Except GenErr V)
    (e : GenErr) (fuel : Nat) (h0 : svc 0 = .error e) (hr : retryable e = false)
    (hf : 1 ≤ fuel) :
    generateModel svc fuel = some (.error e, 1, []) := by
  cases fuel with
  | zero => omega
  | succ f => simp [generateModel, retryGen, h0, hr]

/-- Witness for the amended C4: a schema error propagates on attempt one. -/
theorem generate_nonretryable_propagates_witness :
    generateModel (fun _ => (Except.error GenErr.schemaError : Except GenErr String)) 1 =
      some (.error GenErr.schemaError, 1, []) :=
  generate_nonretryable_propagates _ GenErr.schemaError 1 rfl rfl (by omega)

/-- C5 counterexample: a structurally non-conforming service response — the
SDK leaves `response.parsed` as `None` — is returned by `generate` to the
caller as a null success value, not surfaced as a fatal error. -/
theorem generate_nonconforming_not_fatal_counterexample :
    generateModel
        (fun _ => (Except.ok (none : Option String) : Except GenErr (Option String))) 1 =
      some (.ok none, 1, []) ∧
    surfacedError
        (generateModel
          (fun _ => (Except.ok (none : Option String) : Except GenErr (Option String))) 1) = false :=
  ⟨rfl, rfl⟩

/-- C5 amended: `generate` returns the service response's `parsed` field
unchanged — the successful value handed to the caller is exactly what the
last underlying call produced (no coercion), so any non-null return is a
schema-conforming parsed value, while a non-conforming response surfaces as
a null result (which callers retry), not as a fatal error. -/
theorem generate_returns_parsed_unchanged {V : Type} (svc : Nat → Except GenErr V) :
    ∀ (fuel s : Nat) (ws : List Nat) (r : V) (n : Nat) (ws1 : List Nat),
      retryGen svc fuel s ws = some (.ok r, n, ws1) →
      s < n ∧ svc (n - 1) = .ok r := by
  intro fuel
  induction fuel with
  | zero => intro s ws r n ws1 h; simp [retryGen] at h
  | succ f ih =>
    intro s ws r n ws1 h
    cases hsv : svc s with
    | ok v =>
      simp only [retryGen, hsv, Option.some.injEq, Prod.mk.injEq,
        Except.ok.injEq] at h
      obtain ⟨h1, h2, _⟩ := h
      subst h2
      refine ⟨by omega, ?_⟩
      simp [hsv, h1]
    | error e =>
      by_cases hre : retryable e
      · simp only [retryGen, hsv, hre, if_true] at h
        obtain ⟨h1, h2⟩ := ih (s + 1) (ws ++ [backoffWait s]) r n ws1 h
        exact ⟨by omega, h2⟩
      · simp [retryGen, hsv, hre] at h

/-- Helper: counting an anchor ignores a head entry with a different anchor. -/
theorem countAnchor_cons_ne {p a : Nat} (hne : p ≠ a) (q : Nat)
    (l : List (Nat × Nat)) : countAnchor a ((p, q) :: l) = countAnchor a l := by
  simp [countAnchor, List.filter_cons, hne]

/-- Helper: counting an anchor counts a head entry with that anchor. -/
theorem countAnchor_cons_self (p q : Nat) (l : List (Nat × Nat)) :
    countAnchor p ((p, q) :: l) = countAnchor p l + 1 := by
  simp [countAnchor, List.filter_cons]

/-- Helper: an anchor below every entry's anchor is never counted. -/
theorem countAnchor_zero {a : Nat} {l : List (Nat × Nat)}
    (h : ∀ e ∈ l, a < e.1) : countAnchor a l = 0 := by
  unfold countAnchor
  rw [List.length_eq_zero]
  rw [List.filter_eq_nil_iff]
  intro e he
  have := h e he
  simp
  omega

/-- The per-window invariant of the `ratelimit` fixed-window gate: starting
from a window anchored no later than the clock with at most 150 counted
calls, every issued call lands inside its window (`anchor <= time < anchor + 60`),
the current window issues at most `150 - nc` further calls, and every
window issues at most 150 calls in total. -/
theorem rlSim_invariant :
    ∀ (ts : List Nat) (lr nc clock : Nat),
      lr ≤ clock → nc ≤ 150 →
      (∀ e ∈ rlSim ⟨lr, nc⟩ clock ts, lr ≤ e.1 ∧ e.1 ≤ e.2 ∧ e.2 < e.1 + 60) ∧
      countAnchor lr (rlSim ⟨lr, nc⟩ clock ts) ≤ 150 - nc ∧
      (∀ a, countAnchor a (rlSim ⟨lr, nc⟩ clock ts) ≤ 150) := by
  intro ts
  induction ts with
  | nil =>
    intro lr nc clock _ _
    refine ⟨by simp [rlSim], by simp [rlSim, countAnchor], fun a => by
      simp [rlSim, countAnchor]⟩
  | cons t ts ih =>
    intro lr nc clock hsc hnc
    by_cases h1 : lr + 60 ≤ max clock t
    · rw [show rlSim ⟨lr, nc⟩ clock (t :: ts) =
          (max clock t, max clock t) :: rlSim ⟨max clock t, 1⟩ (max clock t) ts by
        rw [rlSim]
        simp only [if_pos h1]]
      obtain ⟨ih1, ih2, ih3⟩ :=
        ih (max clock t) 1 (max clock t) (Nat.le_refl _) (by omega)
      have hlt : lr < max clock t := by omega
      refine ⟨?_, ?_, ?_⟩
      · intro e he
        rcases List.mem_cons.mp he with rfl | hm
        · exact ⟨Nat.le_of_lt hlt, Nat.le_refl _, by omega⟩
        · have hh := ih1 e hm
          exact ⟨Nat.le_trans (Nat.le_of_lt hlt) hh.1, hh.2⟩
      · rw [countAnchor_cons_ne (by omega)]
        rw [countAnchor_zero (fun e hm => Nat.lt_of_lt_of_le hlt (ih1 e hm).1)]
        omega
      · intro a
        by_cases ha : a = max clock t
        · subst ha
          rw [countAnchor_cons_self]
          omega
        · rw [countAnchor_cons_ne (fun hc => ha hc.symm)]
          exact ih3 a
    · by_cases h2 : nc + 1 ≤ 150
      · rw [show rlSim ⟨lr, nc⟩ clock (t :: ts) =
            (lr, max clock t) :: rlSim ⟨lr, nc + 1⟩ (max clock t) ts by
          rw [rlSim]
          simp only [if_neg h1, if_pos h2]]
        obtain ⟨ih1, ih2, ih3⟩ :=
          ih lr (nc + 1) (max clock t)
            (Nat.le_trans hsc (Nat.le_max_left _ _)) h2
        refine ⟨?_, ?_, ?_⟩
        · intro e he
          rcases List.mem_cons.mp he with rfl | hm
          · exact ⟨Nat.le_refl _, Nat.le_trans hsc (Nat.le_max_left _ _), by omega⟩
          · exact ih1 e hm
        · rw [countAnchor_cons_self]
          omega
        · intro a
          by_cases ha : a = lr
          · subst ha
            rw [countAnchor_cons_self]
            omega
          · rw [countAnchor_cons_ne (fun hc => ha hc.symm)]
            exact ih3 a
      · rw [show rlSim ⟨lr, nc⟩ clock (t :: ts) =
            (lr + 60, lr + 60) :: rlSim ⟨lr + 60, 1⟩ (lr + 60) ts by
          rw [rlSim]
          simp only [if_neg h1, if_neg h2]]
        obtain ⟨ih1, ih2, ih3⟩ :=
          ih (lr + 60) 1 (lr + 60) (Nat.le_refl _) (by omega)
        refine ⟨?_, ?_, ?_⟩
        · intro e he
          rcases List.mem_cons.mp he with rfl | hm
          · exact ⟨by omega, Nat.le_refl _, by omega⟩
          · have hh := ih1 e hm
            exact ⟨by omega, hh.2⟩
        · rw [countAnchor_cons_ne (by omega)]
          rw [countAnchor_zero (fun e hm => by
            have := (ih1 e hm).1
            omega)]
          omega
        · intro a
          by_cases ha : a = lr + 60
          · subst ha
            rw [countAnchor_cons_self]
            omega
          · rw [countAnchor_cons_ne (fun hc => ha hc.symm)]
            exact ih3 a

set_option maxRecDepth 4000 in
/-- C6 counterexample: the `ratelimit` gate is a FIXED window anchored at the
first call after each reset, not a sliding one.  150 calls at t = 59s are
all counted in the window anchored at 0, and a 151st call at t = 60s finds
the window expired, resets it, and goes straight through — so 151 calls are
issued inside the single sliding 60-second window [1s, 61s), violating the
claimed 150-per-60s sliding-window ceiling. -/
theorem rate_sliding_window_counterexample :
    countInWindow (rlSim ⟨0, 0⟩ 0 (List.replicate 150 59 ++ [60])) 1 = 151 ∧
    ¬ countInWindow (rlSim ⟨0, 0⟩ 0 (List.replicate 150 59 ++ [60])) 1 ≤ 150 := by
  constructor
  · rfl
  · decide

/-- C6 amended: the gate enforces a fixed-window quota — every issued call
is stamped into the fixed window it was counted in, lies inside that
window's 60 seconds, and no fixed window admits more than 150 calls (so a
sliding 60s window, overlapping at most two fixed windows that issue calls
inside it, can see at most 300 calls); the ceiling is process-wide because
the decorator state is shared by all callers of `generate`. -/
theorem rate_fixed_window_bound (reqs : List Nat) :
    (∀ a, countAnchor a (rlSim ⟨0, 0⟩ 0 reqs) ≤ 150) ∧
    ∀ e ∈ rlSim ⟨0, 0⟩ 0 reqs, e.1 ≤ e.2 ∧ e.2 < e.1 + 60 := by
  obtain ⟨h1, _, h3⟩ := rlSim_invariant reqs 0 0 0 (Nat.le_refl 0) (by omega)
  exact ⟨h3, fun e he => (h1 e he).2⟩

/-- Witness for the amended C6 on a concrete two-request trace. -/
theorem rate_fixed_window_bound_witness :
    countAnchor 0 (rlSim ⟨0, 0⟩ 0 [5, 6]) ≤ 150 ∧
    ((0, 5) : Nat × Nat).1 ≤ ((0, 5) : Nat × Nat).2 ∧
      ((0, 5) : Nat × Nat).2 < ((0, 5) : Nat × Nat).1 + 60 :=
  ⟨(rate_fixed_window_bound [5, 6]).1 0,
   (rate_fixed_window_bound [5, 6]).2 (0, 5) (by decide)⟩

/-- Helper: a retry pass never changes the key sequence of the mapping. -/
theorem retryPass_keys {V : Type} (F : Nat → List Row → Option V)
    (tbl : List Row) (t : Nat) (resp : List (String × Option V)) :
    (retryPass F tbl t resp).map Prod.fst = resp.map Prod.fst := by
  unfold retryPass
  rw [List.map_map]
  apply List.map_congr_left
  intro kv _
  cases h : kv.2 <;> simp [h]

/-- Helper: if the `while any(... is None ...)` loop of `retry_by_day`
returns, every value of the returned mapping is non-null and the key
sequence is that of the initial mapping. -/
theorem retryLoop_sound {V : Type} (F : Nat → List Row → Option V)
    (tbl : List Row) :
    ∀ (fuel t : Nat) (resp m : List (String × Option V)),
      retryLoop F tbl fuel t resp = some m →
      (∀ kv ∈ m, kv.2.isSome = true) ∧ m.map Prod.fst = resp.map Prod.fst := by
  intro fuel
  induction fuel with
  | zero => intro t resp m h; simp [retryLoop] at h
  | succ f ih =>
    intro t resp m h
    rw [retryLoop] at h
    by_cases hc : resp.any (fun kv => kv.2.isNone)
    · rw [if_pos hc] at h
      obtain ⟨h1, h2⟩ := ih (t + 1) (retryPass F tbl t resp) m h
      exact ⟨h1, by rw [h2, retryPass_keys]⟩
    · rw [if_neg hc] at h
      obtain rfl : resp = m := Option.some.inj h
      refine ⟨?_, rfl⟩
      intro kv hkv
      cases hv : kv.2 with
      | some v => rfl
      | none =>
        exfalso
        apply hc
        refine List.any_eq_true.mpr ⟨kv, hkv, ?_⟩
        rw [hv]
        rfl

/-- C1: whenever `retry_by_day` returns a mapping, every partition of that
mapping holds a non-null value — the retry loop exits only when no value is
`None`, and only then is the mapping handed to `write_data` and returned;
moreover on the fresh path (no cached artifact) the mapping's keys are
exactly the dataset's derived day keys.  The fuel only bounds the model run:
the source loop itself has no attempt cap. -/
theorem retry_by_day_complete {V : Type} (F : Nat → List Row → Option V)
    (tbl : List Row) (cached : Option (List (String × Option V))) (fuel : Nat)
    (m : List (String × Option V))
    (h : retry_by_day F tbl cached fuel = some m) :
    (∀ kv ∈ m, kv.2.isSome = true) ∧
    (cached = none → m.map Prod.fst = dayKeys tbl) := by
  unfold retry_by_day at h
  obtain ⟨h1, h2⟩ := retryLoop_sound F tbl fuel 1 _ m h
  refine ⟨h1, ?_⟩
  intro hc
  subst hc
  simpa [iter_by_day, List.map_map, Function.comp_def] using h2

/-- Witness for C1: a two-day dataset whose first pass leaves one partition
null converges and returns a fully populated mapping. -/
theorem retry_by_day_complete_witness :
    (∀ kv ∈ [("2025-08-24", some "ok"), ("2025-08-25", some "ok")],
      kv.2.isSome = true) ∧
    ((none : Option (List (String × Option String))) = none →
      [("2025-08-24", some "ok"), ("2025-08-25", some "ok")].map Prod.fst =
        dayKeys [⟨some "2025-08-24", 1, "a"⟩, ⟨some "2025-08-25", 2, "b"⟩]) :=
  retry_by_day_complete
    (fun t rows =>
      match rows with
      | [] => some "empty"
      | r :: _ => if t == 0 && r.rownum == 1 then none else some "ok")
    [⟨some "2025-08-24", 1, "a"⟩, ⟨some "2025-08-25", 2, "b"⟩] none 3
    [("2025-08-24", some "ok"), ("2025-08-25", some "ok")] (by decide)

/-- C7: the retry loop is frame-correct.  First conjunct: one retry pass
maps every null partition to `FUN` applied to exactly that partition's rows
re-derived by filtering the dataset on the key, and leaves every non-null
entry untouched.  Second conjunct: a terminating loop returns a mapping of
the same length in which every entry that already held a value is unchanged
(the done partition is never re-invoked — its final entry is literally its
initial one). -/
theorem retry_frame {V : Type} (F : Nat → List Row → Option V) (tbl : List Row) :
    (∀ (t : Nat) (resp : List (String × Option V)),
      retryPass F tbl t resp = resp.map (fun kv =>
        if kv.2.isNone then (kv.1, F t (rowsOn tbl kv.1)) else kv)) ∧
    (∀ (fuel t : Nat) (resp m : List (String × Option V)),
      retryLoop F tbl fuel t resp = some m →
      m.length = resp.length ∧
      ∀ (i : Nat) (hi : i < resp.length) (hm : i < m.length) (v : V),
        (resp.get ⟨i, hi⟩).2 = some v → m.get ⟨i, hm⟩ = resp.get ⟨i, hi⟩) := by
  constructor
  · intro t resp
    unfold retryPass
    apply List.map_congr_left
    intro kv _
    rcases kv with ⟨k, val⟩
    cases val <;> simp
  · intro fuel
    induction fuel with
    | zero => intro t resp m h; simp [retryLoop] at h
    | succ f ih =>
      intro t resp m h
      rw [retryLoop] at h
      by_cases hc : resp.any (fun kv => kv.2.isNone)
      · rw [if_pos hc] at h
        obtain ⟨hlen, hget⟩ := ih (t + 1) (retryPass F tbl t resp) m h
        have hplen : (retryPass F tbl t resp).length = resp.length := by
          simp [retryPass]
        refine ⟨by omega, ?_⟩
        intro i hi hm v hv
        have hpi : i < (retryPass F tbl t resp).length := by omega
        have hpass : (retryPass F tbl t resp).get ⟨i, hpi⟩ = resp.get ⟨i, hi⟩ := by
          rcases hq : resp.get ⟨i, hi⟩ with ⟨k, val⟩
          rw [hq] at hv
          subst hv
          simp only [retryPass, List.get_eq_getElem, List.getElem_map]
          rw [List.get_eq_getElem] at hq
          rw [hq]
        have := hget i hpi hm v (by rw [hpass]; exact hv)
        rw [this, hpass]
      · rw [if_neg hc] at h
        obtain rfl : resp = m := Option.some.inj h
        exact ⟨rfl, fun i hi hm v _ => rfl⟩

/-- Witness for C7: the spec's scenario — seeded with one null and one done
partition and an always-succeeding generator, the loop converges with the
done partition's entry unchanged. -/
theorem retry_frame_witness :
    [("2025-08-24", some "done2"), ("2025-08-25", some "done")].length =
      [("2025-08-24", (none : Option String)), ("2025-08-25", some "done")].length ∧
    [("2025-08-24", some "done2"), ("2025-08-25", some "done")].get ⟨1, by decide⟩ =
      [("2025-08-24", (none : Option String)), ("2025-08-25", some "done")].get
        ⟨1, by decide⟩ := by
  have h := (retry_frame (fun _ _ => some "done2") ([] : List Row)).2 2 1
    [("2025-08-24", (none : Option String)), ("2025-08-25", some "done")]
    [("2025-08-24", some "done2"), ("2025-08-25", some "done")] (by decide)
  exact ⟨h.1, h.2 1 (by decide) (by decide) "done" (by decide)⟩

/-- C2: for every path at which an artifact already exists, `load_or_create`
loads and returns the stored value, leaves the filesystem unchanged, and
never invokes `FUN` — the result does not depend on `FUN` or `params` at
all; only when no artifact exists at the path is `FUN` invoked and its
result persisted there. -/
theorem load_or_create_cache {A : Type} (fs : FSState) (FUN : A → PyVal)
    (path : String) (args : A) :
    (∀ v, lookupFile fs path = some (.jsonC v) →
      load_or_create fs FUN path args = some (v, fs, false)) ∧
    (lookupFile fs path = none →
      load_or_create fs FUN path args =
        some (FUN args, write_data fs path (FUN args), true)) := by
  constructor
  · intro v hv
    simp [load_or_create, hv, readContent]
  · intro hn
    simp [load_or_create, hn]

/-- Witness for C2: a cached artifact is returned untouched and `FUN`
(which would compute a different value) is not invoked. -/
theorem load_or_create_cache_witness :
    load_or_create
        ⟨[("data/processed/keywords.json",
            FileContent.jsonC (.atom (.str "cached")))]⟩
        (fun _ : Unit => PyVal.atom (.str "computed"))
        "data/processed/keywords.json" () =
      some (.atom (.str "cached"),
        ⟨[("data/processed/keywords.json",
            FileContent.jsonC (.atom (.str "cached")))]⟩, false) :=
  (load_or_create_cache _ _ _ _).1 (.atom (.str "cached")) rfl

mutual
/-- Helper: `dict()` conversion leaves no model instance behind. -/
theorem modelFree_dictOf : ∀ v : PyVal, modelFree (dictOf v) = true
  | .atom _ => rfl
  | .other _ => rfl
  | .list xs => modelFreeL_dictOfL xs
  | .dict fs => modelFreeF_dictOfF fs
  | .model _ fs => modelFreeF_dictOfF fs
/-- Helper: list version of `modelFree_dictOf`. -/
theorem modelFreeL_dictOfL : ∀ xs : PyList, modelFreeL (dictOfL xs) = true
  | .nil => rfl
  | .cons x xs => by
    show (modelFree (dictOf x) && modelFreeL (dictOfL xs)) = true
    rw [modelFree_dictOf x, modelFreeL_dictOfL xs]
    rfl
/-- Helper: fields version of `modelFree_dictOf`. -/
theorem modelFreeF_dictOfF : ∀ fs : PyFields, modelFreeF (dictOfF fs) = true
  | .nil => rfl
  | .cons _ v fs => by
    show (modelFree (dictOf v) && modelFreeF (dictOfF fs)) = true
    rw [modelFree_dictOf v, modelFreeF_dictOfF fs]
    rfl
end

mutual
/-- Helper: on a value with no model instances, `serialize` is the identity. -/
theorem serialize_of_modelFree : ∀ v : PyVal, modelFree v = true → serialize v = v
  | .atom _, _ => by simp [serialize]
  | .other _, _ => by simp [serialize]
  | .list xs, h => by
    rw [show serialize (.list xs) = .list (serializeL xs) from by simp [serialize]]
    rw [serializeL_of_modelFree xs h]
  | .dict fs, h => by
    rw [show serialize (.dict fs) = .dict (serializeF fs) from by simp [serialize]]
    rw [serializeF_of_modelFree fs h]
  | .model _ fs, h => by simp [modelFree] at h
/-- List version of `serialize_of_modelFree`. -/
theorem serializeL_of_modelFree : ∀ xs : PyList, modelFreeL xs = true → serializeL xs = xs
  | .nil, _ => by simp [serializeL]
  | .cons x xs, h => by
    have h2 : modelFree x = true ∧ modelFreeL xs = true := by
      simpa [modelFreeL, Bool.and_eq_true] using h
    rw [show serializeL (.cons x xs) = .cons (serialize x) (serializeL xs) from by
      simp [serializeL]]
    rw [serialize_of_modelFree x h2.1, serializeL_of_modelFree xs h2.2]
/-- Fields version of `serialize_of_modelFree`. -/
theorem serializeF_of_modelFree : ∀ fs : PyFields, modelFreeF fs = true → serializeF fs = fs
  | .nil, _ => by simp [serializeF]
  | .cons k v fs, h => by
    have h2 : modelFree v = true ∧ modelFreeF fs = true := by
      simpa [modelFreeF, Bool.and_eq_true] using h
    rw [show serializeF (.cons k v fs) = .cons k (serialize v) (serializeF fs) from by
      simp [serializeF]]
    rw [serialize_of_modelFree v h2.1, serializeF_of_modelFree fs h2.2]
end

mutual
/-- Helper: the output of `serialize` carries no model instance at any depth. -/
theorem modelFree_serialize : ∀ v : PyVal, modelFree (serialize v) = true
  | .atom _ => by simp [serialize, modelFree]
  | .other _ => by simp [serialize, modelFree]
  | .list xs => by
    rw [show serialize (.list xs) = .list (serializeL xs) from by simp [serialize]]
    exact modelFreeL_serializeL xs
  | .dict fs => by
    rw [show serialize (.dict fs) = .dict (serializeF fs) from by simp [serialize]]
    exact modelFreeF_serializeF fs
  | .model nm fs => by
    rw [show serialize (.model nm fs) = serialize (dictOf (.model nm fs)) from by
      simp [serialize]]
    rw [serialize_of_modelFree _ (modelFree_dictOf _)]
    exact modelFree_dictOf _
/-- List version of `modelFree_serialize`. -/
theorem modelFreeL_serializeL : ∀ xs : PyList, modelFreeL (serializeL xs) = true
  | .nil => by simp [serializeL, modelFreeL]
  | .cons x xs => by
    rw [show serializeL (.cons x xs) = .cons (serialize x) (serializeL xs) from by
      simp [serializeL]]
    show (modelFree (serialize x) && modelFreeL (serializeL xs)) = true
    rw [modelFree_serialize x, modelFreeL_serializeL xs]
    rfl
/-- Fields version of `modelFree_serialize`. -/
theorem modelFreeF_serializeF : ∀ fs : PyFields, modelFreeF (serializeF fs) = true
  | .nil => by simp [serializeF, modelFreeF]
  | .cons k v fs => by
    rw [show serializeF (.cons k v fs) = .cons k (serialize v) (serializeF fs) from by
      simp [serializeF]]
    show (modelFree (serialize v) && modelFreeF (serializeF fs)) = true
    rw [modelFree_serialize v, modelFreeF_serializeF fs]
    rfl
end

/-- C10: `serialize` is idempotent — serializing an already-serialized value
returns it unchanged — and its output contains no pydantic model instance at
any nesting depth (models are the one constructor it rewrites; scalars,
dicts and lists pass through rebuilt, any other object unchanged). -/
theorem serialize_idempotent_modelFree (v : PyVal) :
    serialize (serialize v) = serialize v ∧ modelFree (serialize v) = true :=
  ⟨serialize_of_modelFree _ (modelFree_serialize v), modelFree_serialize v⟩

/-- C9: when the artifact being persisted is not JSON-representable,
`write_json` does not fail: it writes the value's displayable string form at
the same base name with a `.txt` extension instead, and (second conjunct)
the `load_or_create` caller still receives the in-memory value computed by
`FUN`, the run continuing normally. -/
theorem write_json_degraded_fallback (fs : FSState) (path : String) (obj : PyVal)
    (h : jsonable (serialize obj) = false) :
    write_json fs path obj =
      writeFile fs (splitextStem path ++ ".txt") (.textC (pyStr (serialize obj))) ∧
    (lookupFile fs path = none →
      load_or_create fs (fun _ : Unit => obj) path () =
        some (obj, write_data fs path obj, true)) := by
  constructor
  · simp [write_json, h]
  · intro hn
    simp [load_or_create, hn]

/-- Witness for C9: a dict holding a non-serializable timestamp object falls
back to the `.txt` dump and the caller still gets the in-memory dict. -/
theorem write_json_degraded_fallback_witness :
    write_json ⟨[]⟩ "data/processed/daily_highlight.json"
        (.dict (.cons "a" (.other "Timestamp") .nil)) =
      writeFile ⟨[]⟩ (splitextStem "data/processed/daily_highlight.json" ++ ".txt")
        (.textC (pyStr (serialize (.dict (.cons "a" (.other "Timestamp") .nil))))) ∧
    (lookupFile ⟨[]⟩ "data/processed/daily_highlight.json" = none →
      load_or_create ⟨[]⟩
          (fun _ : Unit => PyVal.dict (.cons "a" (.other "Timestamp") .nil))
          "data/processed/daily_highlight.json" () =
        some (.dict (.cons "a" (.other "Timestamp") .nil),
          write_data ⟨[]⟩ "data/processed/daily_highlight.json"
            (.dict (.cons "a" (.other "Timestamp") .nil)), true)) :=
  write_json_degraded_fallback ⟨[]⟩ "data/processed/daily_highlight.json"
    (.dict (.cons "a" (.other "Timestamp") .nil))
    (by simp [serialize, serializeF, jsonable, jsonableF])

/-- Helper: a successful retry-until-non-null loop returns some attempt's
reduction output for the given input, unchanged. -/
theorem retryReduce_spec (red : Nat → List Entry → Option (List Entry)) :
    ∀ (fuel t : Nat) (v w : List Entry) (t1 : Nat),
      retryReduce red fuel t v = some (w, t1) → ∃ t0, red t0 v = some w := by
  intro fuel
  induction fuel with
  | zero => intro t v w t1 h; simp [retryReduce] at h
  | succ f ih =>
    intro t v w t1 h
    cases hr : red t v with
    | some w0 =>
      simp only [retryReduce, hr, Option.some.injEq, Prod.mk.injEq] at h
      exact ⟨t, by rw [hr, h.1]⟩
    | none =>
      simp only [retryReduce, hr] at h
      exact ih (t + 1) v w t1 h

/-- Helper: key/row-identifier preservation is reflexive on states. -/
theorem forall2_keyRow_refl :
    ∀ st : List (String × List Entry),
      List.Forall₂ (fun p q => p.1 = q.1 ∧ rowIds p.2 = rowIds q.2) st st := by
  intro st
  induction st with
  | nil => exact .nil
  | cons a l ih => exact .cons ⟨rfl, rfl⟩ ih

/-- Helper: key/row-identifier preservation composes. -/
theorem forall2_keyRow_trans :
    ∀ (a b c : List (String × List Entry)),
      List.Forall₂ (fun p q => p.1 = q.1 ∧ rowIds p.2 = rowIds q.2) a b →
      List.Forall₂ (fun p q => p.1 = q.1 ∧ rowIds p.2 = rowIds q.2) b c →
      List.Forall₂ (fun p q => p.1 = q.1 ∧ rowIds p.2 = rowIds q.2) a c := by
  intro a b c hab
  induction hab generalizing c with
  | nil => intro hbc; cases hbc; exact .nil
  | cons hR htl ih =>
    intro hbc
    cases hbc with
    | cons hR2 htl2 => exact .cons ⟨hR.1.trans hR2.1, hR.2.trans hR2.2⟩ (ih _ htl2)

/-- Helper: one full refinement pass keeps every partition key and, when the
reduction preserves row identifiers, every partition's row-id multiset. -/
theorem refinePass_preserves (red : Nat → List Entry → Option (List Entry))
    (H : ∀ t v w, red t v = some w → rowIds w = rowIds v) (fuel : Nat) :
    ∀ (st : List (String × List Entry)) (t : Nat)
      (st1 : List (String × List Entry)) (t1 : Nat),
      refinePass red fuel t st = some (st1, t1) →
      List.Forall₂ (fun p q => p.1 = q.1 ∧ rowIds p.2 = rowIds q.2) st st1 := by
  intro st
  induction st with
  | nil =>
    intro t st1 t1 h
    simp only [refinePass, Option.some.injEq, Prod.mk.injEq] at h
    rw [← h.1]
    exact .nil
  | cons kv rest ih =>
    intro t st1 t1 h
    rcases kv with ⟨k, v⟩
    cases hr : retryReduce red fuel t v with
    | none => simp [refinePass, hr] at h
    | some p =>
      rcases p with ⟨w, tw⟩
      cases hrest : refinePass red fuel tw rest with
      | none => simp [refinePass, hr, hrest] at h
      | some q =>
        rcases q with ⟨st2, t2⟩
        simp only [refinePass, hr, hrest, Option.some.injEq, Prod.mk.injEq] at h
        obtain ⟨h1, _⟩ := h
        rw [← h1]
        obtain ⟨t0, hred⟩ := retryReduce_spec red fuel t v w tw hr
        exact .cons ⟨rfl, (H t0 v w hred).symm⟩ (ih tw st2 t2 hrest)

/-- C8: for every iteration count `n >= 0` and initial state, if the
reduction relabels entries but never drops or duplicates them (it preserves
each input's multiset of row identifiers), then a terminating
`refine_theme` run preserves, partition by partition, the exact partition
keys and the exact multiset of row identifiers of the initial state. -/
theorem refine_theme_preserves_rowIds (red : Nat → List Entry → Option (List Entry))
    (H : ∀ t v w, red t v = some w → rowIds w = rowIds v) (fuel : Nat) :
    ∀ (n t : Nat) (st st1 : List (String × List Entry)),
      refine_theme red fuel n t st = some st1 →
      List.Forall₂ (fun p q => p.1 = q.1 ∧ rowIds p.2 = rowIds q.2) st st1 := by
  intro n
  induction n with
  | zero =>
    intro t st st1 h
    obtain rfl : st = st1 := Option.some.inj h
    exact forall2_keyRow_refl st
  | succ k ih =>
    intro t st st1 h
    cases hp : refinePass red fuel t st with
    | none => simp [refine_theme, hp] at h
    | some q =>
      rcases q with ⟨st2, t2⟩
      simp only [refine_theme, hp] at h
      exact forall2_keyRow_trans st st2 st1
        (refinePass_preserves red H fuel st t st2 t2 hp) (ih t2 st2 st1 h)

/-- Witness for C8: a one-partition state refined for two iterations with a
row-preserving reduction keeps its key and row identifiers. -/
theorem refine_theme_preserves_rowIds_witness :
    List.Forall₂ (fun p q => p.1 = q.1 ∧ rowIds p.2 = rowIds q.2)
      [("2025-08-24", [Entry.mk 1 "A" "T" "r1" "r2"])]
      [("2025-08-24", [Entry.mk 1 "A" "T" "r1" "r2"])] :=
  refine_theme_preserves_rowIds (fun _ v => some v)
    (fun _ v w h => by rw [← Option.some.inj h]) 1 2 0
    [("2025-08-24", [Entry.mk 1 "A" "T" "r1" "r2"])]
    [("2025-08-24", [Entry.mk 1 "A" "T" "r1" "r2"])] (by decide)

/-- Witness for the amended C5: the value handed back by a one-attempt
successful run is exactly the parsed field the service call produced. -/
theorem generate_returns_parsed_unchanged_witness :
    (0 : Nat) < 1 ∧
    (fun _ : Nat => (Except.ok (some "v") : Except GenErr (Option String))) (1 - 1) =
      .ok (some "v") :=
  generate_returns_parsed_unchanged
    (fun _ : Nat => (Except.ok (some "v") : Except GenErr (Option String)))
    1 0 [] (some "v") 1 [] rfl
